import Mathlib

/-!
Shallow embedding of the secure-docker-plugin admission-control agent
(`check_hash.py`): policy loading, image identity resolution, the
digest-based decision engine `verify_digest`, enforcement (`enforce_block`),
and the event-processing loop of `main` with its per-container decision
cache and audit trail.  External effects (Docker API calls, the filesystem,
console logging) are modelled as explicit inputs and outputs.
-/

namespace SecureDockerPlugin

/-- Severity of a console log line (`log_info`, `log_warn`, `log_block`,
`cprint("[ERROR]", ...)` in the source). -/
inductive Severity
  | info
  | warn
  | block
  | err
deriving DecidableEq, Repr

/-- A console log line: severity prefix plus message. -/
structure LogLine where
  sev : Severity
  msg : String
deriving DecidableEq, Repr

/-- A policy entry as written by `register_image.py`:
`{"layers": [...], "digest": ..., "image"?: ...}`. -/
structure PolicyEntry where
  layers : List String
  digest : Option String
  image : Option String
deriving DecidableEq, Repr

/-- The policy map loaded from `policy.json`: a JSON object, i.e. a finite
map from string keys (image tags and digests) to entries.  Modelled as an
association list. -/
abbrev Policy := List (String × PolicyEntry)

/-- Python `k in policy` on a dict: key membership. -/
def hasKey (policy : Policy) (k : String) : Bool :=
  policy.any (fun kv => kv.1 == k)

/-- Python truthiness of an `Optional[str]`: `None` and the empty string
are falsy, every other string is truthy. -/
def pyTruthyStrOpt : Option String → Bool
  | none => false
  | some s => !(s == "")

/-- `verify_digest` (check_hash.py lines 105-115): allow when the digest is
truthy and a key of the policy; otherwise allow iff `allow_unregistered`;
otherwise block.  The decision is the returned boolean; the log lines the
source emits do not affect it and are omitted. -/
def verify_digest (digest : Option String) (image_name : Option String)
    (policy : Policy) (allow_unregistered : Bool) : Bool :=
  if pyTruthyStrOpt digest && hasKey policy (digest.getD "") then
    true
  else if allow_unregistered then
    true
  else
    false

/-- The image metadata `main` and `get_image_digest` read from the Docker
API: `attrs["RepoDigests"]`, `image.id` and `image.tags`.  `id` is an
`Option` because `attrs.get("Id")` can be absent. -/
structure Image where
  repoDigests : List String
  id : Option String
  tags : List String
deriving DecidableEq, Repr

/-- Scan for the first occurrence of `c`, returning the characters before
it and, when found, the characters after it. -/
def splitAtFirstAux (c : Char) : List Char → List Char → List Char × Option (List Char)
  | [], acc => (acc.reverse, none)
  | x :: rest, acc =>
    if x = c then (acc.reverse, some rest) else splitAtFirstAux c rest (x :: acc)

/-- Python `s.split(c, 1)`: one element when `c` is absent, otherwise the
part before the first `c` and everything after it. -/
def pySplit1 (c : Char) (s : String) : List String :=
  match splitAtFirstAux c s.toList [] with
  | (pre, none) => [String.mk pre]
  | (pre, some post) => [String.mk pre, String.mk post]

/-- The substring after the first occurrence of `c`, when `c` occurs. -/
def afterFirstSep (c : Char) (s : String) : Option String :=
  (splitAtFirstAux c s.toList []).2.map String.mk

/-- `get_image_digest` (check_hash.py lines 90-102): the part of the first
repo-digest after `@` when the list is non-empty and the split succeeds
(an `IndexError` from a missing `@` is swallowed), else the local image id.
The outer `except` only guards attribute access, which the model makes
total. -/
def get_image_digest (image : Image) : Option String :=
  match image.repoDigests with
  | [] => image.id
  | d :: _ =>
    match pySplit1 '@' d with
    | [_, post] => some post
    | _ => image.id

/-- The identity pair `main` computes for a container (lines 232-234):
`image_name = container.image.tags[0] if container.image.tags else None`
and `digest = get_image_digest(image)`. -/
def resolveIdentity (image : Image) : Option String × Option String :=
  (get_image_digest image, image.tags.head?)

/-- Python dict lookup `decisions.get(k)` on the per-container decision
cache (keys are unique, first match wins). -/
def dget? : List (String × Bool) → String → Option Bool
  | [], _ => none
  | (k', v) :: rest, k => if k' == k then some v else dget? rest k

/-- Python dict assignment `decisions[k] = v`: replace the binding when the
key is present, append it otherwise. -/
def dset : List (String × Bool) → String → Bool → List (String × Bool)
  | [], k, v => [(k, v)]
  | (k', v') :: rest, k, v =>
    if k' == k then (k', v) :: rest else (k', v') :: dset rest k v

/-- Kind of an audit record written by `audit(...)`. -/
inductive AuditKind
  | CREATED
  | ALLOWED
  | BLOCKED
deriving DecidableEq, Repr

/-- One JSONL audit record (timestamp omitted: it does not enter any
decision). -/
structure AuditRecord where
  event : AuditKind
  container_id : String
  image : Option String
  message : String
  digest : Option String
deriving DecidableEq, Repr

/-- Does an audit record carry a verdict (ALLOWED or BLOCKED)? -/
def isVerdictAudit : AuditKind → Bool
  | .ALLOWED => true
  | .BLOCKED => true
  | .CREATED => false

/-- A raw Docker event as read by `event.get(...)`: every field may be
absent. -/
structure RawEvent where
  type : Option String
  action : Option String
  id : Option String
deriving DecidableEq, Repr

/-- What one pass of the event-loop body produces: the updated decision
cache, the audit records appended, the container ids `verify_digest` was
invoked for, and the container ids `enforce_block` was triggered for. -/
structure StepOut where
  decisions : List (String × Bool)
  audits : List AuditRecord
  verifies : List String
  enforces : List String
deriving DecidableEq, Repr

/-- The body of the event loop of `main` (check_hash.py lines 225-272) for
one event.  `imageLookup` is `some img` when `client.containers.get`
succeeds and yields a container whose image is `img`, and `none` when the
lookup raises (the source logs a warning and `continue`s). -/
def handle_event (allow_unregistered : Bool) (policy : Policy)
    (decisions : List (String × Bool)) (ev : RawEvent)
    (imageLookup : Option Image) : StepOut :=
  if ev.type == some "container" &&
      (ev.action == some "create" || ev.action == some "start") then
    let container_id := ev.id.getD "<unknown>"
    match imageLookup with
    | none => ⟨decisions, [], [], []⟩
    | some image =>
      let image_name := image.tags.head?
      let digest := get_image_digest image
      if ev.action == some "create" then
        let created : AuditRecord :=
          ⟨.CREATED, container_id, image_name, "Container created", digest⟩
        match dget? decisions container_id with
        | none =>
          let allowed := verify_digest digest image_name policy allow_unregistered
          let decisions' := dset decisions container_id allowed
          if allowed then
            ⟨decisions',
             [created, ⟨.ALLOWED, container_id, image_name,
                "Digest registered or allowed by flag", digest⟩],
             [container_id], []⟩
          else
            ⟨decisions',
             [created, ⟨.BLOCKED, container_id, image_name,
                "Digest not registered", digest⟩],
             [container_id], [container_id]⟩
        | some v =>
          ⟨decisions, [created], [], if v == false then [container_id] else []⟩
      else
        match dget? decisions container_id with
        | none =>
          if image_name == none && digest == none then
            ⟨dset decisions container_id false,
             [⟨.BLOCKED, container_id, image_name,
                "No image metadata; blocked on start", digest⟩],
             [], [container_id]⟩
          else
            let allowed := verify_digest digest image_name policy allow_unregistered
            let decisions' := dset decisions container_id allowed
            if allowed then
              ⟨decisions',
               [⟨.ALLOWED, container_id, image_name,
                  "Digest registered or allowed by flag", digest⟩],
               [container_id], []⟩
            else
              ⟨decisions',
               [⟨.BLOCKED, container_id, image_name,
                  "Digest not registered", digest⟩],
               [container_id], [container_id]⟩
        | some v =>
          ⟨decisions, [], [], if v == false then [container_id] else []⟩
  else
    ⟨decisions, [], [], []⟩

/-- Run the event loop of `main` over a finite prefix of the event stream,
threading the decision cache and accumulating audits, verify calls and
enforcement triggers.  `main` starts it with `decisions = {}`. -/
def runLoop (allow_unregistered : Bool) (policy : Policy)
    (decisions : List (String × Bool)) :
    List (RawEvent × Option Image) → StepOut
  | [] => ⟨decisions, [], [], []⟩
  | (ev, img) :: rest =>
    let out := handle_event allow_unregistered policy decisions ev img
    let outRest := runLoop allow_unregistered policy out.decisions rest
    ⟨outRest.decisions, out.audits ++ outRest.audits,
     out.verifies ++ outRest.verifies, out.enforces ++ outRest.enforces⟩

/-- An error raised by a Docker API call during enforcement:
`docker.errors.NotFound` or any other exception. -/
inductive DockerError
  | notFound
  | apiError (msg : String)
deriving DecidableEq, Repr

/-- Result of one Docker API call. -/
inductive CallResult
  | ok
  | raise (e : DockerError)
deriving DecidableEq, Repr

/-- The runtime calls `enforce_block` can issue. -/
inductive RuntimeCall
  | stop
  | remove
deriving DecidableEq, Repr

/-- How an enforcement attempt ends: all calls succeeded, the container was
already gone (`NotFound` caught), or another exception was caught and
logged as a warning. -/
inductive EnforceOutcome
  | completed
  | alreadyGone
  | failedOther
deriving DecidableEq, Repr

/-- The behaviour of the target container's runtime during one enforcement
attempt.  `runningAttr` is the freshly re-read `State.Running` attribute
(`none` models a failed read, which the source treats as not running; a
failed `container.reload()` is swallowed by the source and is covered by
whatever stale value `runningAttr` holds).  `stopResult` and `removeResult`
describe what `container.stop()` / `container.remove()` would do if
called. -/
structure ContainerRuntime where
  runningAttr : Option Bool
  stopResult : CallResult
  removeResult : CallResult
deriving DecidableEq, Repr

/-- What one run of `enforce_block` did: the runtime calls issued in order,
the log lines emitted, and the outcome. -/
structure EnforceResult where
  calls : List RuntimeCall
  logs : List LogLine
  outcome : EnforceOutcome
deriving DecidableEq, Repr

/-- The two `except` clauses of `enforce_block`: `NotFound` is logged as
informational and any other exception as a warning. -/
def enforceCatch (container_id : String) (callsSoFar : List RuntimeCall)
    (logsSoFar : List LogLine) : DockerError → EnforceResult
  | .notFound =>
    ⟨callsSoFar,
     logsSoFar ++ [⟨.info, "Container " ++ container_id ++ " already removed."⟩],
     .alreadyGone⟩
  | .apiError m =>
    ⟨callsSoFar,
     logsSoFar ++ [⟨.warn, "Failed to enforce block on " ++ container_id ++ ": " ++ m⟩],
     .failedOther⟩

/-- `enforce_block` (check_hash.py lines 190-220): re-read the running
state; when running, stop and — unless safe mode — remove; when stopped,
leave in place under safe mode, remove otherwise.  `NotFound` anywhere is
caught as "already removed" (info), any other exception as a warning. -/
def enforce_block (safe_mode : Bool) (container_id : String)
    (rt : ContainerRuntime) : EnforceResult :=
  let running := rt.runningAttr.getD false
  if running then
    let l0 : LogLine :=
      ⟨.block, (if safe_mode then "Stopping" else "Stopping and removing")
        ++ " container " ++ container_id⟩
    match rt.stopResult with
    | .raise e => enforceCatch container_id [.stop] [l0] e
    | .ok =>
      if safe_mode then
        ⟨[.stop], [l0], .completed⟩
      else
        match rt.removeResult with
        | .raise e => enforceCatch container_id [.stop, .remove] [l0] e
        | .ok => ⟨[.stop, .remove], [l0], .completed⟩
  else
    if safe_mode then
      ⟨[], [⟨.block, "Container " ++ container_id
        ++ " blocked (not running). Left in place due to safe mode."⟩],
       .completed⟩
    else
      let l0 : LogLine := ⟨.block, "Removing blocked container " ++ container_id⟩
      match rt.removeResult with
      | .raise e => enforceCatch container_id [.remove] [l0] e
      | .ok => ⟨[.remove], [l0], .completed⟩

/-- `load_policy` (check_hash.py lines 71-83).  The filesystem is modelled
by whether `POLICY_FILE` exists and by what `json.load` would yield on its
contents: `Except.error` models a raised parse/read exception.  A missing
or unreadable file degrades to the empty policy with a warning. -/
def load_policy (fileExists : Bool) (parseResult : Except String Policy) :
    Policy × List LogLine :=
  if !fileExists then
    ([], [⟨.warn, "Policy file not found. Monitoring will continue, "
      ++ "but only registered images can be verified."⟩])
  else
    match parseResult with
    | .error e =>
      ([], [⟨.warn, "Failed to read policy file: " ++ e
        ++ ". Proceeding with empty policy."⟩])
    | .ok p => (p, [])

/-- The startup phase of `main` (lines 168-186): self-check, policy load,
banner logs.  `exitCode = some 1` and `enteredLoop = false` exactly when
the daemon is unreachable; otherwise the monitoring loop is entered with
whatever `load_policy` returned. -/
structure StartupResult where
  exitCode : Option Nat
  enteredLoop : Bool
  policy : Policy
  logs : List LogLine
deriving DecidableEq, Repr

/-- `main`'s startup, up to entering the event loop. -/
def startup (daemonReachable fileExists : Bool)
    (parseResult : Except String Policy)
    (safe_mode allow_unregistered : Bool) : StartupResult :=
  if !daemonReachable then
    ⟨some 1, false, [], [⟨.err, "Docker daemon is not reachable"⟩]⟩
  else
    let loaded := load_policy fileExists parseResult
    let emptyWarn : List LogLine :=
      if loaded.1.isEmpty && !allow_unregistered then
        [⟨.warn, "Policy is empty and strict mode is active: all images will be blocked"⟩]
      else []
    let banner : List LogLine :=
      [⟨.info, "Monitoring Docker container creation events"⟩]
      ++ (if safe_mode then
            [⟨.info, "Safe mode enabled: will stop, not remove, blocked containers"⟩]
          else [])
      ++ (if allow_unregistered then
            [⟨.warn, "--allow-unregistered enabled: unregistered images will be allowed"⟩]
          else [])
    ⟨none, true, loaded.1, loaded.2 ++ emptyWarn ++ banner⟩

/-- The per-event isolation boundary of the event loop (lines 223-274):
each event's handler runs inside `try/except Exception`; a raised
exception is logged as a warning and the loop moves on with the state
unchanged.  Returns the final state, the number of events taken off the
stream, and the warning lines. -/
def processEvents {σ ε : Type} (handler : σ → ε → Except String σ) :
    σ → List ε → σ × Nat × List LogLine
  | s, [] => (s, 0, [])
  | s, e :: rest =>
    let step : σ × List LogLine :=
      match handler s e with
      | .ok s' => (s', [])
      | .error m => (s, [⟨.warn, "Error handling event: " ++ m⟩])
    let tail := processEvents handler step.1 rest
    (tail.1, tail.2.1 + 1, step.2 ++ tail.2.2)

/-- The state transition one isolated iteration applies: the handler's new
state on success, the old state when the handler raised. -/
def isolatedStep {σ ε : Type} (handler : σ → ε → Except String σ)
    (s : σ) (e : ε) : σ :=
  match handler s e with
  | .ok s' => s'
  | .error _ => s

/-- Count the verdict audits (ALLOWED/BLOCKED) for one container id. -/
def countVerdictAudits (cid : String) (audits : List AuditRecord) : Nat :=
  (audits.filter (fun r => r.container_id == cid && isVerdictAudit r.event)).length

/-- Count the CREATED audits for one container id. -/
def countCreatedAudits (cid : String) (audits : List AuditRecord) : Nat :=
  (audits.filter (fun r => r.container_id == cid && r.event == .CREATED)).length

/-- Spec-side decision engine, stated from the amended wording of the
decision algorithm: Allow iff the digest is non-null, non-empty and a key
of the policy; otherwise Allow iff `allowUnregistered`; otherwise Block. -/
def decide_spec (digest : Option String) (policy : Policy)
    (allowUnregistered : Bool) : Bool :=
  match digest with
  | some d => if !(d == "") && hasKey policy d then true else allowUnregistered
  | none => allowUnregistered

/-- A locally built, untagged image with no identity information at all:
no repo-digests, no local id, no tags. -/
def noIdentityImage : Image := ⟨[], none, []⟩

/-- A `create` lifecycle event for container `cafe01`. -/
def createEvt : RawEvent := ⟨some "container", some "create", some "cafe01"⟩

/-- A `start` lifecycle event for container `cafe01`. -/
def startEvt : RawEvent := ⟨some "container", some "start", some "cafe01"⟩

/-- A policy entry whose key is the empty string (a legal JSON object
key). -/
def emptyKeyEntry : PolicyEntry := ⟨["deadbeef"], some "", some "app"⟩

/-- A policy map containing the empty string as a registered key. -/
def policyWithEmptyKey : Policy := [("", emptyKeyEntry)]

/-- A normally tagged image whose first repo-digest carries a `@`
separator. -/
def taggedImage : Image :=
  ⟨["nginx@sha256:abcd"], some "sha256:local", ["nginx:latest"]⟩

/-- A runtime view of a stopped container whose `remove` would raise
`NotFound` (the container disappeared between decision and
enforcement). -/
def goneStoppedRuntime : ContainerRuntime :=
  ⟨some false, .ok, .raise .notFound⟩

/-- A runtime view of a running container on which every call succeeds. -/
def healthyRunningRuntime : ContainerRuntime := ⟨some true, .ok, .ok⟩

/-- C9: the decision engine treats an empty-string digest like an absent
one — it never allows through the policy-membership branch, even when the
empty string is a registered key, so the verdict is Allow exactly when
`allow_unregistered` is set. -/
theorem emptyDigest_decision_is_flag (image_name : Option String)
    (policy : Policy) (allow_unregistered : Bool) :
    verify_digest (some "") image_name policy allow_unregistered
      = allow_unregistered := by
  cases allow_unregistered <;> simp [verify_digest, pyTruthyStrOpt]

/-- C3 counterexample: the empty string is a non-null digest and a key of
`policyWithEmptyKey`, yet with `allow_unregistered = false` the decision is
Block, where the claim ("Allow if the digest is non-null and a key of the
policy map") requires Allow. -/
theorem decision_nonNull_key_counterexample :
    (some "" : Option String).isSome = true
    ∧ hasKey policyWithEmptyKey "" = true
    ∧ verify_digest (some "") (some "app") policyWithEmptyKey false = false := by
  decide

/-- C3 (amended): the decision is Allow iff the digest is non-null,
non-empty and a key of the policy map; otherwise Allow exactly when
`allow_unregistered` is true; otherwise Block. -/
theorem decision_matches_amended_spec (digest image_name : Option String)
    (policy : Policy) (allow_unregistered : Bool) :
    verify_digest digest image_name policy allow_unregistered
      = decide_spec digest policy allow_unregistered := by
  cases digest with
  | none => cases allow_unregistered <;> simp [verify_digest, decide_spec, pyTruthyStrOpt]
  | some d =>
    by_cases hd : d = ""
    · subst hd
      cases allow_unregistered <;> simp [verify_digest, decide_spec, pyTruthyStrOpt]
    · by_cases hk : hasKey policy d = true
      · simp [verify_digest, decide_spec, pyTruthyStrOpt, hd, hk]
      · cases allow_unregistered <;>
          simp [verify_digest, decide_spec, pyTruthyStrOpt, hd, hk]

/-- C1 (code evaluation at the failing input): for a Created event whose
image has no identity at all (`digest = None`, `tag = None`) and with
`--allow-unregistered` set, the code computes verdict Allow — it caches
`true` and audits CREATED then ALLOWED — although the claim requires an
unconditional Block; the same input on a Started event does Block, showing
the asymmetry between the two event types. -/
theorem noIdentity_create_allows_despite_claim :
    verify_digest none none [] true = true
    ∧ (handle_event true [] [] createEvt (some noIdentityImage)).decisions
        = [("cafe01", true)]
    ∧ (handle_event true [] [] createEvt (some noIdentityImage)).audits.map
        (fun r => r.event) = [.CREATED, .ALLOWED]
    ∧ (handle_event true [] [] startEvt (some noIdentityImage)).decisions
        = [("cafe01", false)]
    ∧ (handle_event true [] [] startEvt (some noIdentityImage)).audits.map
        (fun r => r.event) = [.BLOCKED] := by
  decide

/-- C7: policy loading is total and non-fatal — a missing file and a
malformed file both degrade to the empty policy with a single warning
line, and in both cases startup still enters the monitoring loop instead
of aborting. -/
theorem load_policy_total_nonfatal (parseResult : Except String Policy)
    (e : String) (safe_mode allow_unregistered : Bool) :
    (load_policy false parseResult).1 = []
    ∧ (load_policy false parseResult).2.map (fun l => l.sev) = [.warn]
    ∧ (load_policy true (Except.error e)).1 = []
    ∧ (load_policy true (Except.error e)).2.map (fun l => l.sev) = [.warn]
    ∧ (startup true false parseResult safe_mode allow_unregistered).enteredLoop = true
    ∧ (startup true false parseResult safe_mode allow_unregistered).exitCode = none
    ∧ (startup true true (Except.error e) safe_mode allow_unregistered).enteredLoop = true
    ∧ (startup true true (Except.error e) safe_mode allow_unregistered).exitCode = none := by
  refine ⟨rfl, rfl, rfl, rfl, ?_, ?_, ?_, ?_⟩ <;> simp [startup, load_policy]

/-- C4: safe mode never issues a remove call (a running container gets a
stop call only, a stopped one is left untouched); strict mode stops then
removes a running container and removes a stopped one directly. -/
theorem enforce_mode_table (container_id : String) (rt : ContainerRuntime) :
    (enforce_block true container_id rt).calls.contains .remove = false
    ∧ (rt.runningAttr.getD false = true →
        (enforce_block true container_id rt).calls = [.stop])
    ∧ (rt.runningAttr.getD false = false →
        (enforce_block true container_id rt).calls = [])
    ∧ (rt.runningAttr.getD false = true → rt.stopResult = .ok →
        (enforce_block false container_id rt).calls = [.stop, .remove])
    ∧ (rt.runningAttr.getD false = false →
        (enforce_block false container_id rt).calls = [.remove]) := by
  obtain ⟨ra, sr, rr⟩ := rt
  refine ⟨?_, ?_, ?_, ?_, ?_⟩ <;>
    cases hb : ra.getD false <;>
      rcases sr with _ | (_ | m1) <;> rcases rr with _ | (_ | m2) <;>
        simp_all [enforce_block, enforceCatch]

/-- C4 witness: a healthy running container is stopped and removed under
strict mode, and only stopped under safe mode. -/
theorem enforce_mode_table_witness :
    (enforce_block false "c1" healthyRunningRuntime).calls = [.stop, .remove]
    ∧ (enforce_block true "c1" healthyRunningRuntime).calls = [.stop] := by
  have h := enforce_mode_table "c1" healthyRunningRuntime
  exact ⟨h.2.2.2.1 rfl rfl, h.2.1 rfl⟩

/-- Helper: an event for a container id that already has a cached verdict
leaves the decision cache unchanged, never invokes `verify_digest`, and
re-triggers enforcement exactly when the cached verdict is Block. -/
theorem handle_event_cached (f : Bool) (p : Policy)
    (dec : List (String × Bool)) (img : Image) (cid act : String) (v : Bool)
    (hv : dget? dec cid = some v) (ha : act = "create" ∨ act = "start") :
    (handle_event f p dec ⟨some "container", some act, some cid⟩ (some img)).decisions = dec
    ∧ (handle_event f p dec ⟨some "container", some act, some cid⟩ (some img)).verifies = []
    ∧ (handle_event f p dec ⟨some "container", some act, some cid⟩ (some img)).enforces
        = (if v then [] else [cid])
    ∧ countVerdictAudits cid
        (handle_event f p dec ⟨some "container", some act, some cid⟩ (some img)).audits = 0 := by
  rcases ha with h | h <;> subst h <;> cases v <;>
    simp [handle_event, hv, countVerdictAudits, isVerdictAudit]

/-- C6: a `NotFound` from the runtime during enforcement (the container is
already gone) yields the already-gone outcome, logged as informational
with no warning; any other enforcement failure yields a caught outcome
logged as a warning; and since enforcement never touches the decision
cache, a cached Block verdict stays in place and re-triggers enforcement
on the next event for that id. -/
theorem enforce_notFound_and_failures (safe_mode : Bool) (container_id : String)
    (rt : ContainerRuntime) (m : String) (f : Bool) (p : Policy)
    (dec : List (String × Bool)) (img : Image) (act : String) :
    (rt.runningAttr.getD false = true → rt.stopResult = .raise .notFound →
      (enforce_block safe_mode container_id rt).outcome = .alreadyGone
      ∧ (⟨.info, "Container " ++ container_id ++ " already removed."⟩ : LogLine)
          ∈ (enforce_block safe_mode container_id rt).logs
      ∧ (enforce_block safe_mode container_id rt).logs.all
          (fun l => !(l.sev == .warn)) = true)
    ∧ (rt.runningAttr.getD false = true → rt.stopResult = .ok → safe_mode = false →
        rt.removeResult = .raise .notFound →
        (enforce_block safe_mode container_id rt).outcome = .alreadyGone
        ∧ (⟨.info, "Container " ++ container_id ++ " already removed."⟩ : LogLine)
            ∈ (enforce_block safe_mode container_id rt).logs
        ∧ (enforce_block safe_mode container_id rt).logs.all
            (fun l => !(l.sev == .warn)) = true)
    ∧ (rt.runningAttr.getD false = false → safe_mode = false →
        rt.removeResult = .raise .notFound →
        (enforce_block safe_mode container_id rt).outcome = .alreadyGone
        ∧ (⟨.info, "Container " ++ container_id ++ " already removed."⟩ : LogLine)
            ∈ (enforce_block safe_mode container_id rt).logs
        ∧ (enforce_block safe_mode container_id rt).logs.all
            (fun l => !(l.sev == .warn)) = true)
    ∧ (rt.runningAttr.getD false = true → rt.stopResult = .raise (.apiError m) →
        (enforce_block safe_mode container_id rt).outcome = .failedOther
        ∧ (enforce_block safe_mode container_id rt).logs.any
            (fun l => l.sev == .warn) = true)
    ∧ (rt.runningAttr.getD false = false → safe_mode = false →
        rt.removeResult = .raise (.apiError m) →
        (enforce_block safe_mode container_id rt).outcome = .failedOther
        ∧ (enforce_block safe_mode container_id rt).logs.any
            (fun l => l.sev == .warn) = true)
    ∧ (dget? dec container_id = some false → (act = "create" ∨ act = "start") →
        (handle_event f p dec ⟨some "container", some act, some container_id⟩
          (some img)).decisions = dec
        ∧ (handle_event f p dec ⟨some "container", some act, some container_id⟩
            (some img)).enforces = [container_id]) := by
  obtain ⟨ra, sr, rr⟩ := rt
  refine ⟨?_, ?_, ?_, ?_, ?_, ?_⟩
  case _ =>
    intro h1 h2
    cases hb : ra.getD false <;>
      rcases sr with _ | (_ | m1) <;> simp_all [enforce_block, enforceCatch]
  case _ =>
    intro h1 h2 h3 h4
    cases hb : ra.getD false <;>
      rcases sr with _ | (_ | m1) <;> rcases rr with _ | (_ | m2) <;>
        simp_all [enforce_block, enforceCatch]
  case _ =>
    intro h1 h2 h3
    cases hb : ra.getD false <;>
      rcases rr with _ | (_ | m2) <;> simp_all [enforce_block, enforceCatch]
  case _ =>
    intro h1 h2
    cases hb : ra.getD false <;>
      rcases sr with _ | (_ | m1) <;> simp_all [enforce_block, enforceCatch]
  case _ =>
    intro h1 h2 h3
    cases hb : ra.getD false <;>
      rcases rr with _ | (_ | m2) <;> simp_all [enforce_block, enforceCatch]
  case _ =>
    intro hv ha
    have h := handle_event_cached f p dec img container_id act false hv ha
    exact ⟨h.1, by simpa using h.2.2.1⟩

/-- C6 witness: enforcing on a stopped container whose removal hits
`NotFound` ends in the already-gone outcome, and a cached Block verdict
for `cafe01` re-triggers enforcement on the next start event. -/
theorem enforce_notFound_and_failures_witness :
    (enforce_block false "c1" goneStoppedRuntime).outcome = .alreadyGone
    ∧ (handle_event false [] [("cafe01", false)] ⟨some "container", some "start", some "cafe01"⟩
        (some taggedImage)).enforces = ["cafe01"] := by
  have h1 := enforce_notFound_and_failures false "c1" goneStoppedRuntime "" false []
    [] taggedImage "start"
  have h2 := enforce_notFound_and_failures false "cafe01" goneStoppedRuntime "" false []
    [("cafe01", false)] taggedImage "start"
  exact ⟨(h1.2.2.1 rfl rfl rfl).1, (h2.2.2.2.2.2 rfl (Or.inr rfl)).2⟩

/-- C8: identity resolution is total and follows the fallback chain — with
no repo-digests the digest is the local image id; with a first repo-digest
containing `@` it is the substring after the first `@`; a first
repo-digest without `@` falls back to the local id; and an image with no
repo-digests, no local id and no tags resolves to `(none, none)`. -/
theorem identity_resolution_chain (img : Image) (d : String)
    (rest : List String) (a : String) :
    (img.repoDigests = [] → get_image_digest img = img.id)
    ∧ (img.repoDigests = d :: rest → afterFirstSep '@' d = some a →
        get_image_digest img = some a)
    ∧ (img.repoDigests = d :: rest → afterFirstSep '@' d = none →
        get_image_digest img = img.id)
    ∧ (img.repoDigests = [] → img.id = none → img.tags = [] →
        resolveIdentity img = (none, none)) := by
  refine ⟨?_, ?_, ?_, ?_⟩
  case _ =>
    intro h
    simp [get_image_digest, h]
  case _ =>
    intro h ha
    rcases h2 : splitAtFirstAux '@' d.data [] with ⟨pre, opost⟩
    cases opost with
    | none => simp [afterFirstSep, String.toList, h2] at ha
    | some post =>
      have hpa : String.mk post = a := by
        simpa [afterFirstSep, String.toList, h2] using ha
      simp [get_image_digest, h, pySplit1, String.toList, h2, hpa]
  case _ =>
    intro h ha
    rcases h2 : splitAtFirstAux '@' d.data [] with ⟨pre, opost⟩
    cases opost with
    | none => simp [get_image_digest, h, pySplit1, String.toList, h2]
    | some post => simp [afterFirstSep, String.toList, h2] at ha
  case _ =>
    intro h1 h2 h3
    simp [resolveIdentity, get_image_digest, h1, h2, h3]

/-- C8 witness: a repo-digest `nginx@sha256:abcd` resolves to
`sha256:abcd`, and the no-identity image resolves to `(none, none)`. -/
theorem identity_resolution_chain_witness :
    get_image_digest taggedImage = some "sha256:abcd"
    ∧ resolveIdentity noIdentityImage = (none, none) := by
  have h1 := identity_resolution_chain taggedImage "nginx@sha256:abcd" [] "sha256:abcd"
  have h2 := identity_resolution_chain noIdentityImage "" [] ""
  exact ⟨h1.2.1 rfl (by decide), h2.2.2.2 rfl rfl rfl⟩

/-- C5: the per-event `try/except` boundary isolates handler failures —
for every handler (including ones that raise on some or all events) the
loop consumes the entire event stream, never terminating early, and its
final state is the fold of the isolated step (failed events leave the
state unchanged and only add a warning). -/
theorem event_loop_isolates_failures {σ ε : Type}
    (handler : σ → ε → Except String σ) (s : σ) (evs : List ε) :
    (processEvents handler s evs).2.1 = evs.length
    ∧ (processEvents handler s evs).1 = evs.foldl (isolatedStep handler) s := by
  induction evs generalizing s with
  | nil => simp [processEvents]
  | cons e rest ih =>
    cases h : handler s e with
    | ok s' =>
      have := ih s'
      simp [processEvents, isolatedStep, h, List.foldl, this.1, this.2]
    | error m =>
      have := ih s
      simp [processEvents, isolatedStep, h, List.foldl, this.1, this.2]

/-- Helper: assigning a key makes it present with the assigned value. -/
theorem dget_dset_self (d : List (String × Bool)) (k : String) (v : Bool) :
    dget? (dset d k v) k = some v := by
  induction d with
  | nil => simp [dset, dget?]
  | cons kv rest ih =>
    obtain ⟨k', v'⟩ := kv
    by_cases h : k' = k <;> simp [dset, dget?, h, ih]

/-- Helper: assigning one key never drops another key from the cache. -/
theorem dget_dset_preserves (d : List (String × Bool)) (k c : String) (v : Bool)
    (h : (dget? d c).isSome) : (dget? (dset d k v) c).isSome := by
  induction d with
  | nil => simp [dget?] at h
  | cons kv rest ih =>
    obtain ⟨k', v'⟩ := kv
    by_cases h1 : k' = k
    · subst h1
      by_cases h2 : k' = c <;> simp_all [dset, dget?]
    · by_cases h2 : k' = c <;> simp_all [dset, dget?]

/-- Helper: one pass of the loop body either leaves the decision cache and
verify list untouched, or the event's container id was fresh and gets
exactly one cache entry, with `verify_digest` invoked at most for that
id. -/
theorem handle_event_shape (f : Bool) (p : Policy) (dec : List (String × Bool))
    (ev : RawEvent) (img : Option Image) :
    ((handle_event f p dec ev img).decisions = dec
      ∧ (handle_event f p dec ev img).verifies = [])
    ∨ (dget? dec (ev.id.getD "<unknown>") = none
       ∧ (∃ b, (handle_event f p dec ev img).decisions
            = dset dec (ev.id.getD "<unknown>") b)
       ∧ ((handle_event f p dec ev img).verifies = []
          ∨ (handle_event f p dec ev img).verifies = [ev.id.getD "<unknown>"])) := by
  by_cases hc : (ev.type == some "container"
      && (ev.action == some "create" || ev.action == some "start")) = true
  case neg =>
    left
    simp [handle_event, hc]
  case pos =>
    have hct := hc
    simp only [Bool.and_eq_true, Bool.or_eq_true, beq_iff_eq] at hct
    obtain ⟨ht, hact⟩ := hct
    cases img with
    | none =>
      left
      simp [handle_event, hc]
    | some image =>
      rcases hact with hcr | hst
      case inl =>
        cases hd : dget? dec (ev.id.getD "<unknown>") with
        | some v =>
          left
          simp [handle_event, ht, hcr, hd]
        | none =>
          refine Or.inr ⟨rfl,
            ⟨verify_digest (get_image_digest image) image.tags.head? p f, ?_⟩,
            Or.inr ?_⟩ <;>
            cases ha : verify_digest (get_image_digest image) image.tags.head? p f <;>
              simp [handle_event, ht, hcr, hd, ha]
      case inr =>
        cases hd : dget? dec (ev.id.getD "<unknown>") with
        | some v =>
          left
          simp [handle_event, ht, hst, hd]
        | none =>
          by_cases hmeta : (image.tags.head? == (none : Option String)
              && get_image_digest image == (none : Option String)) = true
          case pos =>
            refine Or.inr ⟨rfl, ⟨false, ?_⟩, Or.inl ?_⟩ <;>
              simp [handle_event, ht, hst, hd, hmeta]
          case neg =>
            refine Or.inr ⟨rfl,
              ⟨verify_digest (get_image_digest image) image.tags.head? p f, ?_⟩,
              Or.inr ?_⟩ <;>
              cases ha : verify_digest (get_image_digest image) image.tags.head? p f <;>
                simp [handle_event, ht, hst, hd, hmeta, ha]

/-- Helper: `verify_digest` is invoked for an id only when the id was
fresh, and afterwards the id is cached. -/
theorem handle_event_verifies_fresh (f : Bool) (p : Policy)
    (dec : List (String × Bool)) (ev : RawEvent) (img : Option Image)
    (cid : String) (hmem : cid ∈ (handle_event f p dec ev img).verifies) :
    dget? dec cid = none
    ∧ (dget? (handle_event f p dec ev img).decisions cid).isSome := by
  rcases handle_event_shape f p dec ev img with ⟨hdec, hv⟩ | ⟨hnone, ⟨b, hdec⟩, hv | hv⟩
  · rw [hv] at hmem
    simp at hmem
  · rw [hv] at hmem
    simp at hmem
  · rw [hv] at hmem
    simp at hmem
    subst hmem
    refine ⟨hnone, ?_⟩
    rw [hdec, dget_dset_self]
    rfl

/-- Helper: a cached id stays cached across one pass of the loop body. -/
theorem handle_event_preserves_cached (f : Bool) (p : Policy)
    (dec : List (String × Bool)) (ev : RawEvent) (img : Option Image)
    (cid : String) (h : (dget? dec cid).isSome) :
    (dget? (handle_event f p dec ev img).decisions cid).isSome := by
  rcases handle_event_shape f p dec ev img with ⟨hdec, _⟩ | ⟨_, ⟨b, hdec⟩, _⟩
  · rw [hdec]
    exact h
  · rw [hdec]
    exact dget_dset_preserves dec (ev.id.getD "<unknown>") cid b h

/-- Helper: over any run of the loop, `verify_digest` is invoked at most
once for each container id, and never for an id already cached at the
start. -/
theorem runLoop_verify_once (f : Bool) (p : Policy) (cid : String) :
    ∀ (trace : List (RawEvent × Option Image)) (dec : List (String × Bool)),
    ((runLoop f p dec trace).verifies.count cid ≤ 1)
    ∧ ((dget? dec cid).isSome → (runLoop f p dec trace).verifies.count cid = 0) := by
  intro trace
  induction trace with
  | nil =>
    intro dec
    simp [runLoop]
  | cons pr rest ih =>
    intro dec
    obtain ⟨ev, img⟩ := pr
    have hsplit : (runLoop f p dec ((ev, img) :: rest)).verifies
        = (handle_event f p dec ev img).verifies
          ++ (runLoop f p (handle_event f p dec ev img).decisions rest).verifies := rfl
    constructor
    · rw [hsplit, List.count_append]
      by_cases hin : cid ∈ (handle_event f p dec ev img).verifies
      · obtain ⟨hnone, hsome⟩ := handle_event_verifies_fresh f p dec ev img cid hin
        have hrest := (ih (handle_event f p dec ev img).decisions).2 hsome
        have hcv : (handle_event f p dec ev img).verifies.count cid ≤ 1 := by
          rcases handle_event_shape f p dec ev img with ⟨_, hv⟩ | ⟨_, _, hv | hv⟩ <;>
            rw [hv] <;> simp [List.count_cons] <;> split <;> simp
        omega
      · have hz : (handle_event f p dec ev img).verifies.count cid = 0 :=
          List.count_eq_zero.mpr hin
        have hrest := (ih (handle_event f p dec ev img).decisions).1
        omega
    · intro hs
      rw [hsplit, List.count_append]
      have h1 : (handle_event f p dec ev img).verifies.count cid = 0 := by
        apply List.count_eq_zero.mpr
        intro hmem
        have hnone := (handle_event_verifies_fresh f p dec ev img cid hmem).1
        rw [hnone] at hs
        simp at hs
      have h2 := (ih (handle_event f p dec ev img).decisions).2
        (handle_event_preserves_cached f p dec ev img cid hs)
      omega

/-- Helper: a Created event for a fresh container id computes one verdict,
caches it, and emits exactly one CREATED and exactly one verdict
(ALLOWED/BLOCKED) audit record. -/
theorem handle_event_fresh_create (f : Bool) (p : Policy)
    (dec : List (String × Bool)) (img : Image) (cid : String)
    (hd : dget? dec cid = none) :
    (handle_event f p dec ⟨some "container", some "create", some cid⟩
        (some img)).decisions
      = dset dec cid (verify_digest (get_image_digest img) img.tags.head? p f)
    ∧ countVerdictAudits cid
        (handle_event f p dec ⟨some "container", some "create", some cid⟩
          (some img)).audits = 1
    ∧ countCreatedAudits cid
        (handle_event f p dec ⟨some "container", some "create", some cid⟩
          (some img)).audits = 1 := by
  cases ha : verify_digest (get_image_digest img) img.tags.head? p f <;>
    simp [handle_event, hd, ha, countVerdictAudits, countCreatedAudits, isVerdictAudit]

/-- C2: per-container memoization of the decision engine — (a) over any
run of the loop from the empty cache, `verify_digest` is invoked at most
once per container id; (b) feeding the same Created event twice for a
fresh id produces exactly one ALLOWED/BLOCKED audit record in total; (c)
any later Created or Started event for a cached id reuses the verdict
(no new `verify_digest` call) and re-triggers enforcement exactly when
the cached verdict is Block. -/
theorem decision_memoized_per_container (f : Bool) (p : Policy) :
    (∀ (trace : List (RawEvent × Option Image)) (cid : String),
      (runLoop f p [] trace).verifies.count cid ≤ 1)
    ∧ (∀ (dec : List (String × Bool)) (img : Image) (cid : String),
        dget? dec cid = none →
        countVerdictAudits cid
          ((handle_event f p dec ⟨some "container", some "create", some cid⟩
              (some img)).audits
            ++ (handle_event f p
                 (handle_event f p dec ⟨some "container", some "create", some cid⟩
                   (some img)).decisions
                 ⟨some "container", some "create", some cid⟩ (some img)).audits) = 1)
    ∧ (∀ (dec : List (String × Bool)) (img : Image) (cid act : String) (v : Bool),
        dget? dec cid = some v → (act = "create" ∨ act = "start") →
        (handle_event f p dec ⟨some "container", some act, some cid⟩
            (some img)).verifies = []
        ∧ (handle_event f p dec ⟨some "container", some act, some cid⟩
            (some img)).enforces = (if v then [] else [cid])) := by
  refine ⟨?_, ?_, ?_⟩
  case _ =>
    intro trace cid
    exact (runLoop_verify_once f p cid trace []).1
  case _ =>
    intro dec img cid hd
    have h1 := handle_event_fresh_create f p dec img cid hd
    have hcached : dget? (handle_event f p dec
        ⟨some "container", some "create", some cid⟩ (some img)).decisions cid
        = some (verify_digest (get_image_digest img) img.tags.head? p f) := by
      rw [h1.1, dget_dset_self]
    have h2 := handle_event_cached f p
      (handle_event f p dec ⟨some "container", some "create", some cid⟩
        (some img)).decisions img cid "create"
      (verify_digest (get_image_digest img) img.tags.head? p f) hcached (Or.inl rfl)
    have hsum : countVerdictAudits cid
        ((handle_event f p dec ⟨some "container", some "create", some cid⟩
            (some img)).audits
          ++ (handle_event f p
               (handle_event f p dec ⟨some "container", some "create", some cid⟩
                 (some img)).decisions
               ⟨some "container", some "create", some cid⟩ (some img)).audits)
        = countVerdictAudits cid
            (handle_event f p dec ⟨some "container", some "create", some cid⟩
              (some img)).audits
          + countVerdictAudits cid
              (handle_event f p
                (handle_event f p dec ⟨some "container", some "create", some cid⟩
                  (some img)).decisions
                ⟨some "container", some "create", some cid⟩ (some img)).audits := by
      simp [countVerdictAudits, List.filter_append]
    rw [hsum, h1.2.1, h2.2.2.2]
  case _ =>
    intro dec img cid act v hv ha
    have h := handle_event_cached f p dec img cid act v hv ha
    exact ⟨h.2.1, h.2.2.1⟩

/-- C2 witness: with the empty policy and strict flags, a first Created
event for `cafe01` followed by the identical Created event yields exactly
one verdict audit record, and a cached Allow verdict suppresses both
verification and enforcement on a later start event. -/
theorem decision_memoized_per_container_witness :
    countVerdictAudits "cafe01"
      ((handle_event false [] [] ⟨some "container", some "create", some "cafe01"⟩
          (some taggedImage)).audits
        ++ (handle_event false []
             (handle_event false [] [] ⟨some "container", some "create", some "cafe01"⟩
               (some taggedImage)).decisions
             ⟨some "container", some "create", some "cafe01"⟩ (some taggedImage)).audits) = 1
    ∧ (handle_event false [] [("cafe01", true)]
        ⟨some "container", some "start", some "cafe01"⟩ (some taggedImage)).enforces = [] := by
  have h := decision_memoized_per_container false []
  refine ⟨h.2.1 [] taggedImage "cafe01" rfl, ?_⟩
  have h2 := h.2.2 [("cafe01", true)] taggedImage "cafe01" "start" true rfl (Or.inr rfl)
  simpa using h2.2

/-- C10: every Created event appends a CREATED audit record, including a
repeated Created event for an id whose verdict is already cached — only
the ALLOWED/BLOCKED records are deduplicated by the decision cache, not
the CREATED records. -/
theorem created_audit_every_create (f : Bool) (p : Policy)
    (dec : List (String × Bool)) (img : Image) (cid : String) :
    countCreatedAudits cid
      (handle_event f p dec ⟨some "container", some "create", some cid⟩
        (some img)).audits = 1
    ∧ (∀ v, dget? dec cid = some v →
        countVerdictAudits cid
          (handle_event f p dec ⟨some "container", some "create", some cid⟩
            (some img)).audits = 0) := by
  constructor
  · cases hd : dget? dec cid with
    | none => exact (handle_event_fresh_create f p dec img cid hd).2.2
    | some v =>
      simp [handle_event, hd, countCreatedAudits]
  · intro v hv
    exact (handle_event_cached f p dec img cid "create" v hv (Or.inl rfl)).2.2.2

/-- C10 witness: a repeated Created event for the already-decided
`cafe01` still appends its CREATED record while adding no verdict
record. -/
theorem created_audit_every_create_witness :
    countCreatedAudits "cafe01"
      (handle_event true [] [("cafe01", true)] createEvt (some noIdentityImage)).audits = 1
    ∧ countVerdictAudits "cafe01"
        (handle_event true [] [("cafe01", true)] createEvt (some noIdentityImage)).audits = 0 := by
  have h := created_audit_every_create true [] [("cafe01", true)] noIdentityImage "cafe01"
  exact ⟨h.1, h.2 true rfl⟩

end SecureDockerPlugin
